import Mathlib

/-!
Shallow embedding of drivers/power/max17048_battery.c (MAX17048 fuel-gauge
driver) and proofs about its transport layer, initialization protocol,
sampling/derivation logic, thermal compensation and alert handling.

Machine integers are modelled as Nat/Int with explicit truncation helpers
mirroring the C conversions (uint8_t, uint16_t, int, s64).
-/

/-- Conversion of a C `int` value to `uint8_t` (reduction modulo 2^8). -/
def u8 (x : Int) : Nat := (x % 256).toNat

/-- Conversion of a C `int` value to `uint16_t` (reduction modulo 2^16). -/
def u16 (x : Int) : Nat := (x % 65536).toNat

/-- Wrap-around of a mathematical integer into the range of a signed 32-bit
`int`, as performed by a C cast `(int)x` from a wider signed value. -/
def i32 (x : Int) : Int := (x + 2147483648) % 4294967296 - 2147483648

/-- Wrap-around of a mathematical integer into the range of a signed 64-bit
`s64`. -/
def i64 (x : Int) : Int := (x + 9223372036854775808) % 18446744073709551616 - 9223372036854775808

/-- Byte swap of a 16-bit word, as `swab16` does on the value the driver
exchanges with the chip. -/
def swab16 (x : Nat) : Nat := (x % 256) * 256 + (x / 256 % 256)

/-- Register addresses of the MAX17048 (the `MAX17048_\*` defines). -/
def MAX17048_VCELL : Nat := 0x02
def MAX17048_SOC : Nat := 0x04
def MAX17048_VER : Nat := 0x08
def MAX17048_HIBRT : Nat := 0x0A
def MAX17048_CONFIG : Nat := 0x0C
def MAX17048_OCV : Nat := 0x0E
def MAX17048_VALRT : Nat := 0x14
def MAX17048_VRESET : Nat := 0x18
def MAX17048_STATUS : Nat := 0x1A
def MAX17048_UNLOCK : Nat := 0x3E
def MAX17048_TABLE : Nat := 0x40
def MAX17048_RCOMPSEG1 : Nat := 0x80
def MAX17048_RCOMPSEG2 : Nat := 0x90
def MAX17048_UNLOCK_VALUE : Nat := 0x4a57

/-- Linux errno used by the driver for the not-ready / absent-device cases. -/
def ENODEV : Int := 19

/-- Observable events of one transport call: the mutex acquire/release and
the i2c bus transaction, in order of occurrence. -/
inductive Event where
  | lock
  | unlock
  | busReadWord (reg : Nat)
  | busWriteWord (reg : Nat) (value : Nat)
  | busWriteBlock (cmd : Nat) (values : List Nat)
deriving DecidableEq, Repr

/-- Oracle for the underlying i2c bus: the value each smbus transaction
returns (negative values are transport errors; reads return the raw word). -/
structure Bus where
  readWord : Nat → Int
  writeWord : Nat → Nat → Int
  writeBlock : Nat → List Nat → Int

/-- Embeds `max17048_write_word`: lock, shutdown fence, byte-swapped smbus
word write, unlock.  Returns the i2c return value and the event trace. -/
def max17048_write_word (sd : Bool) (bus : Bus) (reg value : Nat) : Int × List Event :=
  if sd then (-ENODEV, [Event.lock, Event.unlock])
  else
    let v := swab16 (value % 65536)
    (bus.writeWord reg v, [Event.lock, Event.busWriteWord reg v, Event.unlock])

/-- Embeds `max17048_write_block`: lock, shutdown fence, smbus block write,
unlock. -/
def max17048_write_block (sd : Bool) (bus : Bus) (cmd : Nat) (values : List Nat) : Int × List Event :=
  if sd then (-ENODEV, [Event.lock, Event.unlock])
  else
    (bus.writeBlock cmd values, [Event.lock, Event.busWriteBlock cmd values, Event.unlock])

/-- Embeds `max17048_read_word`: lock, shutdown fence, smbus word read; on
success the low 16 bits are byte-swapped. -/
def max17048_read_word (sd : Bool) (bus : Bus) (reg : Nat) : Int × List Event :=
  if sd then (-ENODEV, [Event.lock, Event.unlock])
  else
    let ret := bus.readWord reg
    if ret < 0 then (ret, [Event.lock, Event.busReadWord reg, Event.unlock])
    else ((swab16 (u16 ret) : Nat), [Event.lock, Event.busReadWord reg, Event.unlock])

/-- Battery characterization model (`struct max17048_battery_model`), as
consumed by the initialization protocol.  Fields parsed from u32 device-tree
properties into nonnegative C values are Nat; the temperature coefficients
are stored negated by the parser and are kept as Int. -/
structure Model where
  bits : Nat
  alert_threshold : Int
  one_percent_alerts : Nat
  valert : Nat
  vreset : Nat
  hibernate : Nat
  rcomp : Nat
  rcomp_seg : Nat
  soccheck_A : Nat
  soccheck_B : Nat
  ocvtest : Nat
  t_co_hot : Int
  t_co_cold : Int
  data_tbl : List Nat
deriving DecidableEq, Repr

/-- The 16-byte pattern `max17048_write_rcomp_seg` builds from the segment
word: the high byte at even offsets, the low byte at odd offsets. -/
def rcomp_seg_table (rcomp_seg : Nat) : List Nat :=
  let rs1 := (rcomp_seg / 256) % 256
  let rs2 := rcomp_seg % 256
  [rs1, rs2, rs1, rs2, rs1, rs2, rs1, rs2, rs1, rs2, rs1, rs2, rs1, rs2, rs1, rs2]

/-- Embeds `max17048_write_rcomp_seg`: the pattern is written to both
RCOMPSEG regions, short-circuiting on error. -/
def max17048_write_rcomp_seg (sd : Bool) (bus : Bus) (rcomp_seg : Nat) : Int :=
  let ret := (max17048_write_block sd bus MAX17048_RCOMPSEG1 (rcomp_seg_table rcomp_seg)).1
  if ret < 0 then ret
  else
    let ret := (max17048_write_block sd bus MAX17048_RCOMPSEG2 (rcomp_seg_table rcomp_seg)).1
    if ret < 0 then ret
    else 0

/-- Embeds the model-table loop of `max17048_load_model_data`: the 64-byte
table is written as four consecutive 16-byte blocks starting at
`MAX17048_TABLE`; the first failing block write yields -1. -/
def writeTableLoop (sd : Bool) (bus : Bus) (tbl : List Nat) (i : Nat) : Nat → Int
  | 0 => 0
  | n + 1 =>
    if (max17048_write_block sd bus (MAX17048_TABLE + i * 16) ((tbl.drop (i * 16)).take 16)).1 < 0
    then -1
    else writeTableLoop sd bus tbl (i + 1) n

/-- Embeds `max17048_load_model_data`: read OCV (sentinel 0xffff means the
unlock did not take), write the table blocks, the test OCV, the RCOMP
segments, disable hibernate, lock, settle, then read the SOC register and
compare its high byte against the acceptance window; finally re-unlock and
restore the original OCV.  Return values mirror the C exactly, including
the verification-failure branch returning the (nonnegative) SOC read. -/
def max17048_load_model_data (sd : Bool) (bus : Bus) (m : Model) : Int :=
  let ret := (max17048_read_word sd bus MAX17048_OCV).1
  if ret < 0 then ret
  else
    let ocv := u16 ret
    if ocv = 0xffff then -1
    else if writeTableLoop sd bus m.data_tbl 0 4 < 0 then -1
    else
      let ret := (max17048_write_word sd bus MAX17048_OCV m.ocvtest).1
      if ret < 0 then ret
      else
        let ret := max17048_write_rcomp_seg sd bus m.rcomp_seg
        if ret < 0 then ret
        else
          let ret := (max17048_write_word sd bus MAX17048_HIBRT 0x0000).1
          if ret < 0 then ret
          else
            let ret := (max17048_write_word sd bus MAX17048_UNLOCK 0x0000).1
            if ret < 0 then ret
            else
              let ret := (max17048_read_word sd bus MAX17048_SOC).1
              if ret < 0 then ret
              else
                let soc_tst := u16 ret
                if ¬(soc_tst / 256 ≥ m.soccheck_A ∧ soc_tst / 256 ≤ m.soccheck_B) then ret
                else
                  let ret := (max17048_write_word sd bus MAX17048_UNLOCK MAX17048_UNLOCK_VALUE).1
                  if ret < 0 then ret
                  else
                    let ret := (max17048_write_word sd bus MAX17048_OCV ocv).1
                    if ret < 0 then ret
                    else ret

/-- Embeds `max17048_initialize`.  The local `ret` in the C source is
declared `uint8_t`, so every return value is truncated through `u8` before
the `ret < 0` test, exactly as the C integer conversions do. -/
def max17048_initialize (sd : Bool) (bus : Bus) (m : Model) : Int :=
  let ret : Nat := u8 (max17048_write_word sd bus MAX17048_UNLOCK MAX17048_UNLOCK_VALUE).1
  if (ret : Int) < 0 then (ret : Int)
  else
    let ret : Nat := u8 (max17048_load_model_data sd bus m)
    if (ret : Int) < 0 then (ret : Int)
    else
      let config : Nat :=
        if m.bits = 19 then u8 (32 - m.alert_threshold * 2)
        else if m.bits = 18 then u8 (32 - m.alert_threshold)
        else 0
      let config : Nat := (m.one_percent_alerts ||| config) % 256
      let ret : Nat := u8 (max17048_write_word sd bus MAX17048_CONFIG ((m.rcomp <<< 8) ||| config)).1
      if (ret : Int) < 0 then (ret : Int)
      else
        let ret : Nat := u8 (max17048_write_word sd bus MAX17048_VALRT m.valert).1
        if (ret : Int) < 0 then (ret : Int)
        else
          let ret : Nat := u8 (max17048_write_word sd bus MAX17048_VRESET m.vreset).1
          if (ret : Int) < 0 then (ret : Int)
          else
            let ret : Nat := u8 (max17048_write_word sd bus MAX17048_UNLOCK 0x0000).1
            if (ret : Int) < 0 then (ret : Int)
            else 0

/-- A bus on which every transaction fails with `-ENODEV`, modelling a dead
or fenced i2c segment. -/
def failBus : Bus where
  readWord := fun _ => -ENODEV
  writeWord := fun _ _ => -ENODEV
  writeBlock := fun _ _ => -ENODEV

/-- A bus on which every write succeeds and every read returns 0 except the
charge-state register, whose raw word 0x3412 byte-swaps to 0x1234: the
post-load SOC high byte is 0x12 = 18. -/
def socFailBus : Bus where
  readWord := fun reg => if reg = MAX17048_SOC then 0x3412 else 0
  writeWord := fun _ _ => 0
  writeBlock := fun _ _ => 0

/-- A concrete characterization model with acceptance window [228, 232]. -/
def cModel : Model where
  bits := 19
  alert_threshold := 4
  one_percent_alerts := 0x40
  valert := 0xFF00
  vreset := 0x9600
  hibernate := 0x8030
  rcomp := 0x57
  rcomp_seg := 0x0200
  soccheck_A := 228
  soccheck_B := 232
  ocvtest := 0xDA10
  t_co_hot := -275
  t_co_cold := -750
  data_tbl := List.replicate 64 0xAA

/-- Power-supply status values used by the driver. -/
inductive PsStatus where
  | Charging
  | Discharging
  | Full
  | Unknown
deriving DecidableEq, Repr

/-- Power-supply health values used by the driver. -/
inductive PsHealth where
  | Good
  | Dead
  | Overheat
  | Cold
  | Unknown
deriving DecidableEq, Repr

/-- Power-supply capacity levels used by the driver. -/
inductive PsCapacityLevel where
  | Normal
  | Full
  | Critical
  | Unknown
deriving DecidableEq, Repr

/-- The mutable per-chip record (`struct max17048_chip`), restricted to the
fields the sampling and alert logic reads and writes. -/
structure Chip where
  vcell : Int
  soc : Int
  internal_soc : Int
  status : PsStatus
  health : PsHealth
  capacity_level : PsCapacityLevel
  lasttime_soc : Int
  lasttime_status : PsStatus
  current_threshold : Int
  lasttime_current_threshold : Int
deriving DecidableEq, Repr

/-- Embeds `max17048_get_vcell`, applied to the value the VCELL register
read returned: on failure the previous voltage is kept, otherwise the raw
word is converted to millivolts. -/
def max17048_get_vcell (vcellRead : Int) (st : Chip) : Chip :=
  if vcellRead < 0 then st
  else { st with vcell := ((((vcellRead.toNat >>> 4) * 125) / 100) % 65536 : Nat) }

/-- Embeds `max17048_get_soc`, applied to the value the SOC register read
returned: on success the raw word is shifted by 8 (18-bit models) or 9 bits
into `internal_soc`; `soc` is then derived and the status/health/capacity
trichotomy applied.  On a failed read `internal_soc` is kept but the
derivation still runs, as in the C. -/
def max17048_get_soc (socRead : Int) (bits : Nat) (st : Chip) : Chip :=
  let st :=
    if socRead < 0 then st
    else if bits = 18 then { st with internal_soc := ((u16 socRead) >>> 8 : Nat) }
    else { st with internal_soc := ((u16 socRead) >>> 9 : Nat) }
  let st := { st with soc := st.internal_soc }
  if st.internal_soc ≥ 100 then
    { st with
      status := if st.status = PsStatus.Charging then PsStatus.Full else st.status
      soc := 100
      capacity_level := PsCapacityLevel.Full
      health := PsHealth.Good }
  else if st.soc < 15 then
    { st with
      status := st.lasttime_status
      health := PsHealth.Dead
      capacity_level := PsCapacityLevel.Critical }
  else
    { st with
      status := st.lasttime_status
      health := PsHealth.Good
      capacity_level := PsCapacityLevel.Normal }

/-- Platform data consumed by the threshold and throttle policies
(`struct max17048_platform_data`).  The two parallel C arrays of SOC bounds
and values are modelled as lists of pairs, in array order. -/
structure Pdata where
  has_set_current_threshold : Bool
  current_normal : Int
  current_threshold_tbl : List (Int × Int)
  has_sysedp_throttle : Bool
  sysedp_throttle_tbl : List (Int × Int)
deriving DecidableEq, Repr

/-- Result of one `max17048_set_current_threshold` pass: the updated
threshold fields and the callback invocations (threshold, min_cpu). -/
structure ThreshResult where
  current_threshold : Int
  lasttime_current_threshold : Int
  calls : List (Int × Int)
deriving DecidableEq, Repr

/-- Embeds the scan loop shared by `max17048_set_current_threshold` and
`max17048_sysedp_throttle`: the first entry, in table order, whose SOC
bound is at least `internal_soc` and whose value is nonzero. -/
def threshold_scan (internal_soc : Int) : List (Int × Int) → Option Int
  | [] => none
  | (bound, value) :: rest =>
    if internal_soc ≤ bound ∧ value ≠ 0 then some value
    else threshold_scan internal_soc rest

/-- Selection rule as the specification words it: the first table entry
whose SOC bound is `≥ internal_soc` and whose value is nonzero. -/
def threshold_first_match (internal_soc : Int) (tbl : List (Int × Int)) : Option Int :=
  (tbl.find? fun e => decide (internal_soc ≤ e.1 ∧ e.2 ≠ 0)).map fun e => e.2

/-- Embeds `max17048_set_current_threshold`: guarded by callback, table and
normal value being present; scans the table, falls back to the normal
threshold, and invokes the callback only when the selection differs from
the shadow value, updating the shadow only when the callback succeeds. -/
def max17048_set_current_threshold (p : Pdata) (cbRet internal_soc cur last : Int) : ThreshResult :=
  if p.has_set_current_threshold = true ∧ p.current_threshold_tbl ≠ [] ∧ p.current_normal ≠ 0 then
    let sel := threshold_scan internal_soc p.current_threshold_tbl
    let thr := sel.getD p.current_normal
    let min_cpu : Int := if sel.isSome then 1 else 2
    if thr ≠ last then
      if cbRet < 0 then
        { current_threshold := thr, lasttime_current_threshold := last, calls := [(thr, min_cpu)] }
      else
        { current_threshold := thr, lasttime_current_threshold := thr, calls := [(thr, min_cpu)] }
    else
      { current_threshold := thr, lasttime_current_threshold := last, calls := [] }
  else
    { current_threshold := cur, lasttime_current_threshold := last, calls := [] }

/-- Embeds `max17048_sysedp_throttle`: when the callback is present it is
always invoked, with the scanned value or ULONG_MAX (32-bit) as default. -/
def max17048_sysedp_throttle (p : Pdata) (internal_soc : Int) : List Int :=
  if p.has_sysedp_throttle = true then
    [(threshold_scan internal_soc p.sysedp_throttle_tbl).getD 4294967295]
  else []

/-- The branch-selected temperature delta of `max17048_update_rcomp`, before
any narrowing: `(temp - 20000) * coefficient / 1000000` with the hot
coefficient above 20 degC, the cold one below, and zero at exactly 20 degC
(`div64_s64` truncates toward zero, hence `Int.tdiv`). -/
def rcomp_delta (temp t_co_hot t_co_cold : Int) : Int :=
  if temp > 20000 then ((temp - 20000) * t_co_hot).tdiv 1000000
  else if temp < 20000 then ((temp - 20000) * t_co_cold).tdiv 1000000
  else 0

/-- Embeds the RCOMP computation of `max17048_update_rcomp`: the two s64
products and divisions, the `(int)` cast of the selected delta, the int
addition to the base RCOMP, and the clamp to [0, 255]. -/
def max17048_new_rcomp (temp : Int) (rcomp : Nat) (t_co_hot t_co_cold : Int) : Int :=
  let hot_temp := (i64 ((temp - 20000) * t_co_hot)).tdiv 1000000
  let cold_temp := (i64 ((temp - 20000) * t_co_cold)).tdiv 1000000
  let new_rcomp :=
    if temp > 20000 then i32 ((rcomp : Int) + i32 hot_temp)
    else if temp < 20000 then i32 ((rcomp : Int) + i32 cold_temp)
    else (rcomp : Int)
  if new_rcomp > 0xFF then 0xFF
  else if new_rcomp < 0 then 0
  else new_rcomp

/-- Specification-side RCOMP byte: `clamp(rcompBase + delta, 0, 255)` over
mathematical integers. -/
def rcomp_spec_byte (temp : Int) (rcomp : Nat) (t_co_hot t_co_cold : Int) : Int :=
  max 0 (min 255 ((rcomp : Int) + rcomp_delta temp t_co_hot t_co_cold))

/-- Embeds the register update of `max17048_update_rcomp`: on a successful
config read, the lower byte is kept and the upper byte replaced by the new
RCOMP value; on a failed read nothing is written. -/
def max17048_rcomp_written (temp : Int) (rcomp : Nat) (t_co_hot t_co_cold : Int)
    (configRead : Int) : Option Nat :=
  if configRead < 0 then none
  else some ((configRead.toNat &&& 0xFF) ||| ((max17048_new_rcomp temp rcomp t_co_hot t_co_cold).toNat <<< 8))

/-- Embeds the change-notification tail of `max17048_work`: when `soc` or
`status` differs from its shadow, `lasttime_soc` is updated and a change
notification (the Bool) is raised. -/
def max17048_work_tail (st : Chip) : Chip × Bool :=
  if st.soc ≠ st.lasttime_soc ∨ st.status ≠ st.lasttime_status then
    ({ st with lasttime_soc := st.soc }, true)
  else (st, false)

/-- Return values of the register reads an interrupt invocation performs,
and of the threshold callback, as one record. -/
structure IrqEnv where
  statusRead : Int
  vcellRead : Int
  socRead : Int
  configRead : Int
  cbRet : Int
deriving DecidableEq, Repr

/-- Observable outcome of one `max17048_irq` invocation. -/
structure IrqOut where
  chip : Chip
  valrt_writes : List Nat
  throttle_calls : List Int
  status_cleared : Bool
  err_branch : Bool
deriving DecidableEq, Repr

/-- Embeds `max17048_irq`.  The status read is stored into the `u16` local
`val` before the `val < 0` test; the bits RI/VH/VR/ENVR are log-only; VL
forces the low-charge state and mutes the voltage alert by writing
`valert & 0x00FF`; HD re-reads voltage and charge state; SC additionally
reapplies the threshold and throttle policies and, when the re-read
`internal_soc` is at least 1, restores the full voltage-alert value;
finally the status register is cleared. -/
def max17048_irq (env : IrqEnv) (m : Model) (p : Pdata) (st : Chip) : IrqOut :=
  let val : Nat := u16 env.statusRead
  if (val : Int) < 0 then
    { chip := st
      valrt_writes := []
      throttle_calls := []
      status_cleared := false
      err_branch := true }
  else
    let st1 :=
      if val &&& 0x0400 ≠ 0 then
        { st with
          soc := 0
          lasttime_soc := 0
          status := st.lasttime_status
          health := PsHealth.Dead
          capacity_level := PsCapacityLevel.Critical }
      else st
    let w1 : List Nat := if val &&& 0x0400 ≠ 0 then [m.valert &&& 0x00FF] else []
    let st2 :=
      if val &&& 0x1000 ≠ 0 then
        let sa := max17048_get_vcell env.vcellRead st1
        let sb := max17048_get_soc env.socRead m.bits sa
        { sb with lasttime_soc := sb.soc }
      else st1
    let scr :=
      if val &&& 0x2000 ≠ 0 then
        let sa := max17048_get_vcell env.vcellRead st2
        let sb := max17048_get_soc env.socRead m.bits sa
        let tr := max17048_set_current_threshold p env.cbRet sb.internal_soc
          sb.current_threshold sb.lasttime_current_threshold
        let th := max17048_sysedp_throttle p sb.internal_soc
        let sc : Chip := { sb with
          current_threshold := tr.current_threshold
          lasttime_current_threshold := tr.lasttime_current_threshold
          lasttime_soc := sb.soc }
        let w2 : List Nat := if (1 : Int) ≤ sc.internal_soc then [m.valert % 65536] else []
        (sc, w2, th)
      else (st2, ([] : List Nat), ([] : List Int))
    { chip := scr.1
      valrt_writes := w1 ++ scr.2.1
      throttle_calls := scr.2.2
      status_cleared := true
      err_branch := false }

/-- Embeds `max17048_check_vcell`: with no device instance the query
returns -1, otherwise the cached voltage. -/
def max17048_check_vcell (g : Option Chip) : Int :=
  match g with
  | none => -1
  | some c => c.vcell

/-- Embeds `max17048_check_soc`: with no device instance the query
returns -1, otherwise the cached internal SOC. -/
def max17048_check_soc (g : Option Chip) : Int :=
  match g with
  | none => -1
  | some c => c.internal_soc

/-- Embeds `max17048_check_battery`: with no device instance it returns
`-ENODEV` without any transport call; otherwise it reads the version
register and accepts only the two supported silicon revisions. -/
def max17048_check_battery (g : Option Chip) (sd : Bool) (bus : Bus) : Int × List Event :=
  match g with
  | none => (-ENODEV, [])
  | some _ =>
    let r := max17048_read_word sd bus MAX17048_VER
    let version := u16 r.1
    if version ≠ 0x11 ∧ version ≠ 0x12 then (-ENODEV, r.2) else (0, r.2)

/-- A concrete chip state used to instantiate the alert and sampling
theorems. -/
def cChip : Chip where
  vcell := 3800
  soc := 50
  internal_soc := 50
  status := PsStatus.Discharging
  health := PsHealth.Good
  capacity_level := PsCapacityLevel.Normal
  lasttime_soc := 50
  lasttime_status := PsStatus.Charging
  current_threshold := 300
  lasttime_current_threshold := 300

/-- Platform data with no optional callbacks, for alert-handler theorems. -/
def cPdata : Pdata where
  has_set_current_threshold := false
  current_normal := 0
  current_threshold_tbl := []
  has_sysedp_throttle := false
  sysedp_throttle_tbl := []

/-- Platform data with the ascending two-entry example table of the
specification and normal threshold 300. -/
def examplePdata : Pdata where
  has_set_current_threshold := true
  current_normal := 300
  current_threshold_tbl := [(30, 500), (60, 900)]
  has_sysedp_throttle := false
  sysedp_throttle_tbl := []

/-- Interrupt environment for a pure VoltageLow alert (status word 0x0400). -/
def vlEnv : IrqEnv where
  statusRead := 0x0400
  vcellRead := 0
  socRead := 0
  configRead := 0
  cbRet := 0

/-- Interrupt environment for a subsequent SocChange alert whose SOC
re-read 0x6400 derives an internal SOC of 100 on an 18-bit model. -/
def scEnv : IrqEnv where
  statusRead := 0x2000
  vcellRead := 0x1000
  socRead := 0x6400
  configRead := 0
  cbRet := 0

/-- C3: once the shutdown flag is set, `max17048_write_word`,
`max17048_write_block` and `max17048_read_word` all return `-ENODEV`
immediately, with no bus transaction in their trace, and the mutex is
released (the trace is exactly lock followed by unlock). -/
theorem shutdown_fences_transport (bus : Bus) (reg value cmd : Nat) (values : List Nat) :
    max17048_write_word true bus reg value = (-ENODEV, [Event.lock, Event.unlock]) ∧
    max17048_write_block true bus cmd values = (-ENODEV, [Event.lock, Event.unlock]) ∧
    max17048_read_word true bus reg = (-ENODEV, [Event.lock, Event.unlock]) := by
  refine ⟨?_, ?_, ?_⟩ <;> rfl

/-- Natural-number casts into Int are never negative; this is the reason the
`ret < 0` tests on the `uint8_t` local in `max17048_initialize` can never
fire. -/
theorem natCast_not_lt_zero (n : Nat) : ¬((n : Int) < 0) :=
  not_lt.mpr (Int.natCast_nonneg n)

/-- C1: contrary to the claim, `max17048_initialize` returns 0 (success) for
every bus behaviour and every model, because its local `ret` is a `uint8_t`
and each `ret < 0` abort check is therefore dead code; no register-write
failure can abort it or surface a failure value. -/
theorem initialize_always_returns_zero (sd : Bool) (bus : Bus) (m : Model) :
    max17048_initialize sd bus m = 0 := by
  simp [ max17048_initialize, natCast_not_lt_zero]

/-- C2: contrary to the claim, when the post-load SOC high byte (18) falls
outside the acceptance window [228, 232], `max17048_load_model_data`
returns the nonnegative raw SOC reading 0x1234 = 4660 instead of an error,
and `max17048_initialize` still returns 0 (success). -/
theorem model_verification_failure_not_surfaced :
    max17048_load_model_data false socFailBus cModel = 4660 ∧
    (0 : Int) ≤ max17048_load_model_data false socFailBus cModel ∧
    max17048_initialize false socFailBus cModel = 0 := by
  refine ⟨by decide, by decide, by decide⟩

/-- C4: after a successful charge-state read, the derivation in
`max17048_get_soc` satisfies the claimed trichotomy: at or above 100 the
status is promoted to Full exactly from Charging, soc is 100, the capacity
level Full and the health Good; below 15 the status is restored from the
shadow, health is Dead, the capacity level Critical and soc equals the
internal SOC; otherwise status is restored from the shadow, health is Good,
the capacity level Normal and soc equals the internal SOC. -/
theorem get_soc_trichotomy (socRead : Int) (bits : Nat) (st : Chip) (h : 0 ≤ socRead) :
    (100 ≤ (max17048_get_soc socRead bits st).internal_soc →
      (max17048_get_soc socRead bits st).status =
        (if st.status = PsStatus.Charging then PsStatus.Full else st.status) ∧
      (max17048_get_soc socRead bits st).soc = 100 ∧
      (max17048_get_soc socRead bits st).capacity_level = PsCapacityLevel.Full ∧
      (max17048_get_soc socRead bits st).health = PsHealth.Good) ∧
    ((max17048_get_soc socRead bits st).internal_soc < 15 →
      (max17048_get_soc socRead bits st).status = st.lasttime_status ∧
      (max17048_get_soc socRead bits st).health = PsHealth.Dead ∧
      (max17048_get_soc socRead bits st).capacity_level = PsCapacityLevel.Critical ∧
      (max17048_get_soc socRead bits st).soc = (max17048_get_soc socRead bits st).internal_soc) ∧
    (15 ≤ (max17048_get_soc socRead bits st).internal_soc →
      (max17048_get_soc socRead bits st).internal_soc < 100 →
      (max17048_get_soc socRead bits st).status = st.lasttime_status ∧
      (max17048_get_soc socRead bits st).health = PsHealth.Good ∧
      (max17048_get_soc socRead bits st).capacity_level = PsCapacityLevel.Normal ∧
      (max17048_get_soc socRead bits st).soc = (max17048_get_soc socRead bits st).internal_soc) := by
  unfold max17048_get_soc
  rw [if_neg (not_lt.mpr h)]
  rcases eq_or_ne bits 18 with hb | hb
  · subst hb
    simp only [if_pos rfl]
    split_ifs <;> simp_all <;> omega
  · rw [if_neg hb]
    dsimp only
    split_ifs <;> simp_all <;> omega

/-- C4 witness: a raw SOC word of 0x6400 on an 18-bit model derives an
internal SOC of 100 and promotes a charging chip to Full. -/
theorem get_soc_trichotomy_witness :
    (max17048_get_soc 0x6400 18 { cChip with status := PsStatus.Charging }).status = PsStatus.Full ∧
    (max17048_get_soc 0x6400 18 { cChip with status := PsStatus.Charging }).soc = 100 := by
  have h := get_soc_trichotomy 0x6400 18 { cChip with status := PsStatus.Charging } (by decide)
  have h1 := h.1 (by decide)
  exact ⟨by simpa using h1.1, h1.2.1⟩

/-- The loop of `max17048_set_current_threshold` selects exactly the first
table entry, in order, whose SOC bound is at least the internal SOC and
whose value is nonzero. -/
theorem threshold_scan_eq_first_match (isoc : Int) (tbl : List (Int × Int)) :
    threshold_scan isoc tbl = threshold_first_match isoc tbl := by
  induction tbl with
  | nil => rfl
  | cons e rest ih =>
    rcases e with ⟨bound, value⟩
    by_cases hc : isoc ≤ bound ∧ value ≠ 0
    · simp [threshold_scan, threshold_first_match, if_pos hc, List.find?_cons_of_pos, hc]
    · rw [threshold_scan, if_neg hc, ih]
      simp only [threshold_first_match]
      rw [List.find?_cons_of_neg]
      simp [hc]

/-- C5: with the policy enabled, the selected threshold is the value of the
first table entry whose SOC bound is at least the internal SOC and whose
value is nonzero, with the configured normal threshold as fallback; on the
example table [(30, 500), (60, 900)] the selection is 900 at internal SOC
45 and the normal value 300 at internal SOC 70; the external callback is
invoked exactly when the selection differs from the shadow value. -/
theorem current_threshold_policy (p : Pdata) (cbRet isoc cur last : Int)
    (hset : p.has_set_current_threshold = true)
    (htbl : p.current_threshold_tbl ≠ [])
    (hnorm : p.current_normal ≠ 0) :
    (max17048_set_current_threshold p cbRet isoc cur last).current_threshold
      = (threshold_first_match isoc p.current_threshold_tbl).getD p.current_normal ∧
    threshold_scan 45 [(30, 500), (60, 900)] = some 900 ∧
    threshold_scan 70 [(30, 500), (60, 900)] = none ∧
    (max17048_set_current_threshold examplePdata 0 45 0 0).current_threshold = 900 ∧
    (max17048_set_current_threshold examplePdata 0 70 0 0).current_threshold = 300 ∧
    ((max17048_set_current_threshold p cbRet isoc cur last).calls ≠ [] ↔
      (threshold_scan isoc p.current_threshold_tbl).getD p.current_normal ≠ last) := by
  refine ⟨?_, by decide, by decide, by decide, by decide, ?_⟩
  · rw [max17048_set_current_threshold, if_pos ⟨hset, htbl, hnorm⟩]
    dsimp only
    rw [threshold_scan_eq_first_match]
    split_ifs <;> rfl
  · rw [max17048_set_current_threshold, if_pos ⟨hset, htbl, hnorm⟩]
    dsimp only
    split_ifs with h1 h2 <;> simp_all

/-- C5 witness: the policy theorem instantiated on the example platform
data at internal SOC 45 with shadow value 0. -/
theorem current_threshold_policy_witness :
    (max17048_set_current_threshold examplePdata 0 45 0 0).current_threshold
      = (threshold_first_match 45 examplePdata.current_threshold_tbl).getD examplePdata.current_normal ∧
    ((max17048_set_current_threshold examplePdata 0 45 0 0).calls ≠ [] ↔
      (threshold_scan 45 examplePdata.current_threshold_tbl).getD examplePdata.current_normal ≠ 0) :=
  ⟨(current_threshold_policy examplePdata 0 45 0 0 (by decide) (by decide) (by decide)).1,
   (current_threshold_policy examplePdata 0 45 0 0 (by decide) (by decide) (by decide)).2.2.2.2.2⟩
/-- Composing a byte below 256 with a value shifted left by n bits by
bitwise or is plain addition; this justifies reading the upper byte of the
config word the thermal compensator writes. -/
theorem lor_shiftLeft_eq_add (n a b : Nat) (h : a < 2 ^ n) :
    a ||| (b <<< n) = a + b * 2 ^ n := by
  induction n generalizing a b with
  | zero =>
    have : a = 0 := by omega
    subst this
    simp [Nat.shiftLeft_eq]
  | succ n ih =>
    have hc : (b <<< (n + 1)) % 2 = 0 := by
      rw [Nat.shiftLeft_eq, pow_succ]
      simp [Nat.mul_mod_left, ← Nat.mul_assoc]
    have hdiv : (b <<< (n + 1)) / 2 = b <<< n := by
      rw [Nat.shiftLeft_eq, Nat.shiftLeft_eq, pow_succ]
      rw [← Nat.mul_assoc]
      exact Nat.mul_div_cancel _ (by omega)
    have hmod : (a ||| b <<< (n + 1)) % 2 = a % 2 := by
      have h1 := Nat.or_mod_two_eq_one (a := a) (b := b <<< (n + 1))
      have h2 : (a ||| b <<< (n + 1)) % 2 < 2 := Nat.mod_lt _ (by omega)
      have h3 : a % 2 < 2 := Nat.mod_lt _ (by omega)
      omega
    have hq : (a ||| b <<< (n + 1)) / 2 = a / 2 ||| b <<< n := by
      rw [Nat.or_div_two, hdiv]
    have hih : a / 2 ||| b <<< n = a / 2 + b * 2 ^ n := by
      apply ih
      omega
    calc a ||| b <<< (n + 1)
        = 2 * ((a ||| b <<< (n + 1)) / 2) + (a ||| b <<< (n + 1)) % 2 := by omega
      _ = 2 * (a / 2 ||| b <<< n) + a % 2 := by rw [hq, hmod]
      _ = 2 * (a / 2 + b * 2 ^ n) + a % 2 := by rw [hih]
      _ = (2 * (a / 2) + a % 2) + b * (2 ^ n * 2) := by ring
      _ = a + b * 2 ^ (n + 1) := by rw [Nat.div_add_mod, pow_succ]

/-- C6 (amended): the RCOMP byte computed by `max17048_update_rcomp` always
lies in [0, 255]; and whenever the two s64 products and the `(int)` casts of
the delta and of the sum are value-preserving (true for all realistic
temperatures and coefficients), the byte equals
`clamp(rcompBase + delta, 0, 255)` with the hot coefficient above 20 degC,
the cold one below and zero delta at exactly 20 degC; on a successful
config read the written word carries that byte in its upper byte and
preserves the lower byte.  The amendment is forced: the `(int)` cast can
truncate for extreme inputs, see `rcomp_formula_cex`. -/
theorem rcomp_byte (temp : Int) (rcomp : Nat) (hot cold : Int) (configRead : Int) :
    (0 ≤ max17048_new_rcomp temp rcomp hot cold ∧ max17048_new_rcomp temp rcomp hot cold ≤ 255) ∧
    (i64 ((temp - 20000) * hot) = (temp - 20000) * hot →
     i64 ((temp - 20000) * cold) = (temp - 20000) * cold →
     i32 (rcomp_delta temp hot cold) = rcomp_delta temp hot cold →
     i32 ((rcomp : Int) + rcomp_delta temp hot cold) = (rcomp : Int) + rcomp_delta temp hot cold →
     max17048_new_rcomp temp rcomp hot cold = rcomp_spec_byte temp rcomp hot cold) ∧
    (0 ≤ configRead →
      max17048_rcomp_written temp rcomp hot cold configRead =
        some ((configRead.toNat &&& 0xFF) + (max17048_new_rcomp temp rcomp hot cold).toNat * 256) ∧
      ((configRead.toNat &&& 0xFF) + (max17048_new_rcomp temp rcomp hot cold).toNat * 256) / 256
        = (max17048_new_rcomp temp rcomp hot cold).toNat ∧
      ((configRead.toNat &&& 0xFF) + (max17048_new_rcomp temp rcomp hot cold).toNat * 256) % 256
        = configRead.toNat % 256) := by
  refine ⟨?_, ?_, ?_⟩
  · unfold max17048_new_rcomp
    dsimp only
    split_ifs <;> omega
  · intro h64h h64c hd hs
    rcases lt_trichotomy temp 20000 with ht | ht | ht
    · have hng : ¬(temp > 20000) := by omega
      rw [rcomp_delta, if_neg hng, if_pos ht] at hd hs
      rw [max17048_new_rcomp, rcomp_spec_byte, rcomp_delta]
      rw [h64h, h64c]
      rw [if_neg hng, if_neg hng, if_pos ht, if_pos ht, hd, hs]
      split_ifs <;> omega
    · subst ht
      have hng : ¬((20000 : Int) > 20000) := by omega
      have hnl : ¬((20000 : Int) < 20000) := by omega
      rw [max17048_new_rcomp, rcomp_spec_byte, rcomp_delta]
      rw [if_neg hng, if_neg hng, if_neg hnl, if_neg hnl]
      split_ifs <;> omega
    · have hgt : temp > 20000 := ht
      rw [rcomp_delta, if_pos hgt] at hd hs
      rw [max17048_new_rcomp, rcomp_spec_byte, rcomp_delta]
      rw [h64h, h64c]
      rw [if_pos hgt, if_pos hgt, hd, hs]
      split_ifs <;> omega
  · intro hc
    have hlt : configRead.toNat &&& 0xFF < 256 :=
      Nat.lt_succ_of_le (Nat.and_le_right)
    have hdecomp := lor_shiftLeft_eq_add 8 (configRead.toNat &&& 0xFF)
      (max17048_new_rcomp temp rcomp hot cold).toNat (by norm_num [hlt])
    have hmod : configRead.toNat &&& 0xFF = configRead.toNat % 256 := by
      simpa using Nat.and_pow_two_sub_one_eq_mod configRead.toNat 8
    refine ⟨?_, ?_, ?_⟩
    · rw [max17048_rcomp_written, if_neg (not_lt.mpr hc), hdecomp]
      norm_num
    · omega
    · omega

/-- C6 witness: the amended theorem instantiated at 25 degC with base RCOMP
87 and hot coefficient -275: the byte is the clamped formula value and the
written word composes it with the preserved low byte of the config read. -/
theorem rcomp_byte_witness :
    max17048_new_rcomp 25000 87 (-275) (-750) = rcomp_spec_byte 25000 87 (-275) (-750) ∧
    max17048_rcomp_written 25000 87 (-275) (-750) 100 =
      some (((100 : Int).toNat &&& 0xFF) + (max17048_new_rcomp 25000 87 (-275) (-750)).toNat * 256) :=
  ⟨(rcomp_byte 25000 87 (-275) (-750) 100).2.1 (by decide) (by decide) (by decide) (by decide),
   ((rcomp_byte 25000 87 (-275) (-750) 100).2.2 (by decide)).1⟩

/-- C6 counterexample to the unamended claim: at the maximal 32-bit
temperature 2147483647 with base RCOMP 200 and hot coefficient -2000000,
the `(int)` cast wraps the delta from -4294927294 to +40002, so the chip is
written 255 where `clamp(rcompBase + delta, 0, 255)` is 0. -/
theorem rcomp_formula_cex :
    max17048_new_rcomp 2147483647 200 (-2000000) (-750) = 255 ∧
    rcomp_spec_byte 2147483647 200 (-2000000) (-750) = 0 := by
  refine ⟨by decide, by decide⟩
/-- Reading the voltage never changes the internal SOC field. -/
theorem get_vcell_internal_soc (r : Int) (st : Chip) :
    (max17048_get_vcell r st).internal_soc = st.internal_soc := by
  rw [max17048_get_vcell]
  split_ifs <;> rfl

/-- After a successful SOC read, the internal SOC is the raw word shifted
by 8 bits for an 18-bit model and by 9 bits otherwise, whatever the
derivation branches do to the other fields. -/
theorem get_soc_internal_soc (r : Int) (bits : Nat) (st : Chip) (h : 0 ≤ r) :
    (max17048_get_soc r bits st).internal_soc =
      (((if bits = 18 then u16 r >>> 8 else u16 r >>> 9) : Nat) : Int) := by
  rw [max17048_get_soc, if_neg (not_lt.mpr h)]
  rcases eq_or_ne bits 18 with hb | hb
  · subst hb
    simp only [if_pos rfl]
    split_ifs <;> simp
  · rw [if_neg hb, if_neg hb]
    dsimp only
    split_ifs <;> simp

/-- C7 (amended): processing a status word with only the VoltageLow bit set
forces soc to 0, updates the shadow soc, restores the status from the
shadow, sets health Dead and capacity level Critical, and writes
`valert & 0x00FF` to the voltage-alert register: a value whose low byte
equals the low byte of the originally configured word and whose high byte
is zero - so the high byte changes (muting the alert) and the low byte is
preserved, not the other way around as the claim states (see
`irq_vl_byte_cex`); a subsequent SocChange-only status word whose re-read
internal SOC is at least 1 rewrites the full original two-byte
voltage-alert value. -/
theorem irq_vl_t (env1 env2 : IrqEnv) (m : Model) (p : Pdata) (st : Chip)
    (hvl : u16 env1.statusRead &&& 0x0400 ≠ 0)
    (hhd1 : u16 env1.statusRead &&& 0x1000 = 0)
    (hsc1 : u16 env1.statusRead &&& 0x2000 = 0)
    (hvl2 : u16 env2.statusRead &&& 0x0400 = 0)
    (hhd2 : u16 env2.statusRead &&& 0x1000 = 0)
    (hsc2 : u16 env2.statusRead &&& 0x2000 ≠ 0)
    (hsr : 0 ≤ env2.socRead)
    (hisoc : 1 ≤ ((((if m.bits = 18 then u16 env2.socRead >>> 8 else u16 env2.socRead >>> 9)) : Nat) : Int)) :
    (max17048_irq env1 m p st).chip.soc = 0 ∧
    (max17048_irq env1 m p st).chip.lasttime_soc = 0 ∧
    (max17048_irq env1 m p st).chip.status = st.lasttime_status ∧
    (max17048_irq env1 m p st).chip.health = PsHealth.Dead ∧
    (max17048_irq env1 m p st).chip.capacity_level = PsCapacityLevel.Critical ∧
    (max17048_irq env1 m p st).valrt_writes = [m.valert &&& 0x00FF] ∧
    (m.valert &&& 0x00FF) % 256 = (m.valert % 65536) % 256 ∧
    (m.valert &&& 0x00FF) / 256 = 0 ∧
    (max17048_irq env2 m p (max17048_irq env1 m p st).chip).valrt_writes = [m.valert % 65536] := by
  have h0 := natCast_not_lt_zero (u16 env1.statusRead)
  have h0' := natCast_not_lt_zero (u16 env2.statusRead)
  have hand : m.valert &&& 0x00FF = m.valert % 256 := by
    simpa using Nat.and_pow_two_sub_one_eq_mod m.valert 8
  have hlow : (m.valert &&& 0x00FF) % 256 = (m.valert % 65536) % 256 := by
    rw [hand, Nat.mod_mod_of_dvd _ (by norm_num : (256 : Nat) ∣ 65536)]
    omega
  have hhigh : (m.valert &&& 0x00FF) / 256 = 0 :=
    Nat.div_eq_of_lt (Nat.lt_succ_of_le Nat.and_le_right)
  rw [apply_ite (fun n : Nat => (n : Int))] at hisoc
  refine ⟨?_, ?_, ?_, ?_, ?_, ?_, hlow, hhigh, ?_⟩ <;>
    simp [max17048_irq, h0, h0', hvl, hhd1, hsc1, hvl2, hhd2, hsc2,
      get_vcell_internal_soc, get_soc_internal_soc, hsr, hisoc]
  split_ifs at hisoc ⊢ <;> omega

/-- C7 witness: the amended theorem instantiated on a pure VoltageLow alert
followed by a SocChange alert re-reading SOC word 0x6400 on the concrete
19-bit model. -/
theorem irq_vl_t_witness :
    (max17048_irq vlEnv cModel cPdata cChip).chip.soc = 0 ∧
    (max17048_irq vlEnv cModel cPdata cChip).chip.health = PsHealth.Dead ∧
    (max17048_irq scEnv cModel cPdata (max17048_irq vlEnv cModel cPdata cChip).chip).valrt_writes
      = [cModel.valert % 65536] :=
  ⟨(irq_vl_t vlEnv scEnv cModel cPdata cChip (by decide) (by decide) (by decide) (by decide)
      (by decide) (by decide) (by decide) (by decide)).1,
   (irq_vl_t vlEnv scEnv cModel cPdata cChip (by decide) (by decide) (by decide) (by decide)
      (by decide) (by decide) (by decide) (by decide)).2.2.2.1,
   (irq_vl_t vlEnv scEnv cModel cPdata cChip (by decide) (by decide) (by decide) (by decide)
      (by decide) (by decide) (by decide) (by decide)).2.2.2.2.2.2.2.2⟩

/-- C7 counterexample to the unamended claim: with configured voltage-alert
word 0xFF00 (min bound 0xFF in the high byte, max bound 0x00 in the low
byte), the VoltageLow handler writes 0x0000: the high byte changes from
0xFF to 0x00, so it is not preserved, and the low byte is unchanged, so it
is not the byte that changes. -/
theorem irq_vl_byte_cex :
    (max17048_irq vlEnv cModel cPdata cChip).valrt_writes = [0x00] ∧
    (0x00 : Nat) / 256 ≠ cModel.valert / 256 ∧
    (0x00 : Nat) % 256 = cModel.valert % 256 := by
  refine ⟨by decide, by decide, by decide⟩

/-- C8 (amended): at the end of a sampling pass, a change notification is
raised exactly when soc or status differs from its shadow; when it is
raised, `lasttime_soc` is updated to the current soc, but `lasttime_status`
is never modified at this step (contrary to the claim, see
`work_tail_cex`); when nothing differs the state is unchanged; the step
never alters soc or status themselves. -/
theorem work_tail_shadow (st : Chip) :
    ((max17048_work_tail st).2 = true ↔ (st.soc ≠ st.lasttime_soc ∨ st.status ≠ st.lasttime_status)) ∧
    ((max17048_work_tail st).2 = true → (max17048_work_tail st).1.lasttime_soc = st.soc) ∧
    (max17048_work_tail st).1.lasttime_status = st.lasttime_status ∧
    ((max17048_work_tail st).2 = false → (max17048_work_tail st).1 = st) ∧
    (max17048_work_tail st).1.soc = st.soc ∧
    (max17048_work_tail st).1.status = st.status := by
  rw [max17048_work_tail]
  split_ifs with h <;> simp_all

/-- C8 witness: the amended theorem instantiated on the concrete chip state
whose status differs from its shadow. -/
theorem work_tail_shadow_witness :
    (max17048_work_tail cChip).1.lasttime_soc = cChip.soc ∧
    (max17048_work_tail cChip).1.lasttime_status = cChip.lasttime_status :=
  ⟨(work_tail_shadow cChip).2.1 (by decide), (work_tail_shadow cChip).2.2.1⟩

/-- C8 counterexample to the unamended claim: on a state whose status
(Discharging) differs from the shadow status (Charging), the notification
is raised but the shadow status is left untouched, so it still differs from
the current status afterwards - the code updates only `lasttime_soc`. -/
theorem work_tail_cex :
    (max17048_work_tail cChip).2 = true ∧
    (max17048_work_tail cChip).1.lasttime_status ≠ (max17048_work_tail cChip).1.status := by
  refine ⟨by decide, by decide⟩

/-- C9: the failed-read branch of `max17048_irq` is unreachable: the read
result is stored in the unsigned 16-bit `val`, so the `val < 0` test is
false for every possible return value, including genuine negative error
codes; every invocation therefore interprets the stored value as a status
bitmask, runs the alert handlers and proceeds to clear the status
register. -/
theorem irq_read_error_branch_dead (env : IrqEnv) (m : Model) (p : Pdata) (st : Chip) :
    (max17048_irq env m p st).err_branch = false ∧
    (max17048_irq env m p st).status_cleared = true := by
  rw [max17048_irq, if_neg (natCast_not_lt_zero (u16 env.statusRead))]
  exact ⟨rfl, rfl⟩

/-- C10: with the module-wide instance pointer null, `max17048_check_vcell`
and `max17048_check_soc` return -1 and `max17048_check_battery` returns
`-ENODEV`, in all cases without any bus transaction or access to device
state. -/
theorem global_queries_null_guard (sd : Bool) (bus : Bus) :
    max17048_check_vcell none = -1 ∧
    max17048_check_soc none = -1 ∧
    max17048_check_battery none sd bus = (-ENODEV, []) := by
  refine ⟨rfl, rfl, rfl⟩
